import Mathlib

/-!
Verification of the Synthia voice-call pipeline core
(`backend/services/audio_utils.py`, `backend/services/reasoning_engine.py`,
`backend/services/voice_call.py`) against its natural-language specification.

The Python source is shallowly embedded: pure functions become Lean
functions on `Nat` / `Int` / `List`, bytes become `Fin 256`, a raised
exception that escapes a function becomes `Except.error`, and calls into
external libraries or the network (audioop.ratecv, HTTP provider calls,
STT and TTS services) become explicit function parameters of the embedded
operation.
-/

set_option maxRecDepth 10000

namespace Synthia

/-- Byte of a Python `bytes` object. -/
abbrev Byte := Fin 256

/-- Entry `i` of the μ-law decode table, translated from the loop body of
`_build_mulaw_decode_table` in `audio_utils.py`.  Python `~i` on an
unbounded int is `-i - 1`; for the resulting negative value, `& 0x80` and
`& 0x0F` see only its low bits and are therefore computed through the
nonnegative residues `mod 256` and `mod 16`, and `>> 4` is floor division
by 16 (`Int.fdiv`), with the following `& 0x07` the residue `mod 8`. -/
def mulawDecodeEntry (i : Nat) : Int :=
  let val : Int := -(i : Int) - 1
  let sign : Nat := ((val % 256).toNat) &&& 0x80
  let exponent : Nat := ((val.fdiv 16) % 8).toNat
  let mantissa : Nat := (val % 16).toNat
  let sample : Int := ((((mantissa <<< 3) + 0x84) <<< exponent : Nat) : Int) - 0x84
  if sign ≠ 0 then -sample else sample

/-- The precomputed table `_MULAW_DECODE_TABLE`: the 256 entries produced
by `_build_mulaw_decode_table`. -/
def mulawDecodeTable : List Int :=
  (List.range 256).map mulawDecodeEntry

/-- Decode of one companded byte, `_MULAW_DECODE_TABLE[byte]`.  Indexing
the table at `b < 256` returns exactly the entry the builder loop wrote
there, which is `mulawDecodeEntry b` (theorem `mulawDecodeTable_getD`). -/
def mulawDecodeSample (b : Byte) : Int :=
  mulawDecodeEntry b.val

/-- Table indexing agrees with the entry formula the builder used. -/
theorem mulawDecodeTable_getD (b : Byte) :
    mulawDecodeTable.getD b.val 0 = mulawDecodeSample b := by
  revert b
  decide

/-- Pure-Python path of `mulaw_decode`: decode each input byte through the
table.  The source packs the resulting samples little-endian
(`struct.pack`); its only in-repo consumer, `AudioBuffer.add_chunk`,
immediately unpacks them again (`audioop.rms` with width 2), so the
embedding works with the sample list directly. -/
def mulaw_decode (mulawBytes : List Byte) : List Int :=
  mulawBytes.map mulawDecodeSample

/-- Exponent lookup table of the canonical G.711 μ-law reference decoder;
entry `e` is the biased magnitude contributed by exponent `e`. -/
def mulawExpLut : List Int :=
  [0, 132, 396, 924, 1980, 4092, 8316, 16764]

/-- Canonical G.711 μ-law reference decode of one companded byte:
bit-complement the byte, split it into sign (bit 7), exponent (bits 4 to
6) and mantissa (bits 0 to 3), and expand with bias `0x84 = 132` using the
reference exponent table. -/
def mulawReferenceDecode (b : Byte) : Int :=
  let u : Nat := 255 - b.val
  let sign : Nat := u &&& 0x80
  let exponent : Nat := (u >>> 4) &&& 0x07
  let mantissa : Nat := u &&& 0x0F
  let magnitude : Int := mulawExpLut.getD exponent 0 + ((mantissa <<< (exponent + 3) : Nat) : Int)
  if sign ≠ 0 then -magnitude else magnitude

/-- Exponent search of the pure-Python fallback of `mulaw_encode`: the
mask starts at `0x4000` (bit 14) and the loop scans down to bit 8, giving
exponents 7 down to 1, with 0 when no bit at or above 8 is set. -/
def mulawEncodeExponent (sample : Nat) : Nat :=
  if sample &&& 0x4000 ≠ 0 then 7
  else if sample &&& 0x2000 ≠ 0 then 6
  else if sample &&& 0x1000 ≠ 0 then 5
  else if sample &&& 0x800 ≠ 0 then 4
  else if sample &&& 0x400 ≠ 0 then 3
  else if sample &&& 0x200 ≠ 0 then 2
  else if sample &&& 0x100 ≠ 0 then 1
  else 0

/-- Per-sample body of the pure-Python fallback of `mulaw_encode`: take
sign and magnitude, clip to `MULAW_CLIP = 32635`, add the bias
`MULAW_BIAS = 0x84`, find the exponent, extract the mantissa, and return
the complemented code byte.  Python `~x & 0xFF` for `0 ≤ x ≤ 255` is
`255 - x`. -/
def mulawEncodeSample (sample0 : Int) : Nat :=
  let sign : Nat := if sample0 < 0 then 0x80 else 0
  let mag1 : Int := if sample0 < 0 then -sample0 else sample0
  let mag2 : Int := if mag1 > 32635 then 32635 else mag1
  let biased : Nat := (mag2 + 0x84).toNat
  let exponent : Nat := mulawEncodeExponent biased
  let mantissa : Nat := (biased >>> (exponent + 3)) &&& 0x0F
  255 - (sign ||| (exponent <<< 4) ||| mantissa)

/-- Little-endian signed 16-bit interpretation of consecutive byte pairs,
as `struct.unpack` with format `<Nh` reads them. -/
def pairSamples16LE : List Byte → List Int
  | lo :: hi :: rest =>
      (let v : Nat := lo.val + 256 * hi.val
       if 32768 ≤ v then (v : Int) - 65536 else (v : Int)) :: pairSamples16LE rest
  | _ => []

/-- Semantics of `struct.unpack(f"<.{n}h", buf)`: the format demands the
buffer length equal exactly `2 * n`; on any mismatch `struct.unpack`
raises (`Except.error`), it never truncates. -/
def structUnpack16LE (n : Nat) (buf : List Byte) : Except Unit (List Int) :=
  if buf.length = 2 * n then Except.ok (pairSamples16LE buf) else Except.error ()

/-- Embedding of `mulaw_encode` on a PCM byte buffer.  The pure-Python
fallback computes `struct.unpack` with count `len(pcm_bytes) // 2` and
encodes each sample; for an odd-length buffer the unpack raises and the
exception escapes `mulaw_encode` (the audioop fast path rejects an odd
buffer the same way before the fallback even runs). -/
def mulaw_encode (pcmBytes : List Byte) : Except Unit (List Nat) :=
  match structUnpack16LE (pcmBytes.length / 2) pcmBytes with
  | Except.error e => Except.error e
  | Except.ok samples => Except.ok (samples.map mulawEncodeSample)

/-- Binary floor square root, one bit per step: `sqrtStep n k acc` keeps
the candidate bit `2 ^ (k - 1)` exactly when the square still fits under
`n`. -/
def sqrtStep (n : Nat) : Nat → Nat → Nat
  | 0, acc => acc
  | k + 1, acc =>
      let t := acc + (1 <<< k)
      if t * t ≤ n then sqrtStep n k t else sqrtStep n k acc

/-- Integer square root, exact (equal to the floor of the real square
root) for every `n < 2 ^ 64`; sums of squares of 16-bit samples divided by
the sample count stay far below that bound. -/
def isqrt (n : Nat) : Nat :=
  sqrtStep n 32 0

/-- Semantics of `audioop.rms(fragment, 2)`: the integer part of the
square root of the mean of the squared samples, and 0 for an empty
fragment. -/
def audioRms (samples : List Int) : Nat :=
  if samples.length = 0 then 0
  else isqrt ((samples.map (fun s => (s * s).toNat)).sum / samples.length)

/-- RMS silence threshold of `AudioBuffer` (`self._silence_threshold`). -/
def silenceThreshold : Nat := 500

/-- Mutable state of `AudioBuffer`: the byte accumulator, the construction
parameters, the consecutive-silent-chunk counter and the speech flag. -/
structure AudioBufferState where
  buffer : List Byte
  minBytes : Nat
  maxBytes : Nat
  silenceChunks : Nat
  speechDetected : Bool
deriving DecidableEq

/-- State of a freshly constructed `AudioBuffer(min_bytes, max_bytes)`. -/
def AudioBufferState.init (minB maxB : Nat) : AudioBufferState :=
  { buffer := [], minBytes := minB, maxBytes := maxB,
    silenceChunks := 0, speechDetected := false }

/-- Embedding of `AudioBuffer.add_chunk`: extend the accumulator, decode
the chunk and classify it by RMS against the silence threshold, then
either flush (returning the accumulated bytes and resetting accumulator,
silence counter and speech flag, as `_flush` does) when the accumulator
has reached `max_bytes`, or when it has reached `min_bytes` with speech
detected and at least 15 consecutive silent chunks, and otherwise keep
buffering and return nothing. -/
def add_chunk (st : AudioBufferState) (chunk : List Byte) :
    Option (List Byte) × AudioBufferState :=
  let buf := st.buffer ++ chunk
  let rms := audioRms (mulaw_decode chunk)
  let silence := if rms < silenceThreshold then st.silenceChunks + 1 else 0
  let speech := if rms < silenceThreshold then st.speechDetected else true
  if st.maxBytes ≤ buf.length then
    (some buf, { st with buffer := [], silenceChunks := 0, speechDetected := false })
  else if st.minBytes ≤ buf.length ∧ speech = true ∧ 15 ≤ silence then
    (some buf, { st with buffer := [], silenceChunks := 0, speechDetected := false })
  else
    (none, { st with buffer := buf, silenceChunks := silence, speechDetected := speech })

/-- Driver feeding frames to `add_chunk` one at a time, recording the
1-based frame index and the flushed byte count of every flush. -/
def runFrames (st : AudioBufferState) (idx : Nat) :
    List (List Byte) → List (Nat × Nat)
  | [] => []
  | f :: rest =>
      let step := add_chunk st f
      match step.1 with
      | some buf => (idx, buf.length) :: runFrames step.2 (idx + 1) rest
      | none => runFrames step.2 (idx + 1) rest

/-- Twilio-sized frame of 160 silent bytes: `0xFF` decodes to sample 0,
whose RMS 0 is below the silence threshold. -/
def silentFrame : List Byte :=
  List.replicate 160 (255 : Fin 256)

/-- Twilio-sized frame of 160 loud bytes: `0x80` decodes to sample 32124,
whose RMS 32124 is far above the silence threshold. -/
def loudFrame : List Byte :=
  List.replicate 160 (128 : Fin 256)

/-- Scenario of the segmenter flush test: 80 silent frames, then 40 loud
frames, then 16 silent frames. -/
def flushScenario : List (List Byte) :=
  List.replicate 80 silentFrame ++ List.replicate 40 loudFrame ++
    List.replicate 16 silentFrame

/-- Embedding of `split_mulaw_for_twilio`, written with an explicit
iteration bound: each pass of the Python loop `for i in range(0, len,
chunk_size)` takes one chunk of at most `chunk_size` bytes off the front,
and `len(mulaw_bytes)` passes always suffice because every pass consumes
at least one byte (the source never runs the loop with step 0: `range`
would raise, and both call sites use the default 640). -/
def splitChunksGo (chunkSize : Nat) : Nat → List Byte → List (List Byte)
  | 0, _ => []
  | _, [] => []
  | fuel + 1, b :: rest =>
      ((b :: rest).take chunkSize) :: splitChunksGo chunkSize fuel ((b :: rest).drop chunkSize)

/-- Split μ-law audio into chunks for Twilio Media Stream playback;
default chunk size 640 bytes (80 ms at 8 kHz). -/
def split_mulaw_for_twilio (mulawBytes : List Byte) (chunkSize : Nat := 640) :
    List (List Byte) :=
  splitChunksGo chunkSize mulawBytes.length mulawBytes

/-- Outbound Twilio media message: the `payload` field of the JSON message
is the base64 encoding of `payloadBytes`; the embedding keeps the bytes
that stand under the base64 coding. -/
structure MediaMessage where
  event : String
  streamSid : String
  payloadBytes : List Byte
deriving DecidableEq

/-- Embedding of `create_media_message`. -/
def create_media_message (streamSid : String) (mulawPayload : List Byte) :
    MediaMessage :=
  { event := "media", streamSid := streamSid, payloadBytes := mulawPayload }

/-- Embedding of `resample_to_8k`.  The call into `audioop.ratecv` is
external C code and enters the model as the function parameter `ratecv`;
`none` stands for the call raising (which `resample_to_8k` catches, logs
and answers by returning the input unchanged), `some out` for it
returning converted audio.  The function has no failure outcome of its
own: every path returns a byte buffer. -/
def resample_to_8k (ratecv : List Byte → Nat → Option (List Byte))
    (pcmData : List Byte) (sourceRate : Nat) : List Byte :=
  if sourceRate = 8000 then pcmData
  else
    match ratecv pcmData sourceRate with
    | some converted => converted
    | none => pcmData

/-- Embedding of `pcm_to_mulaw_8k`: resample to 8 kHz, then μ-law encode
(the source default for `source_rate` is 22050). -/
def pcm_to_mulaw_8k (ratecv : List Byte → Nat → Option (List Byte))
    (pcmBytes : List Byte) (sourceRate : Nat := 22050) : Except Unit (List Nat) :=
  mulaw_encode (resample_to_8k ratecv pcmBytes sourceRate)

/-- One role/content chat message, the dict shape
`\x7b"role": ..., "content": ...\x7d` used throughout the pipeline. -/
structure ChatMsg where
  role : String
  content : String
deriving DecidableEq

/-- Apostrophe character, kept out of string literals. -/
def apos : String :=
  ⟨[Char.ofNat 39]⟩

/-- The single hard-coded string `ReasoningEngine.chat` returns when the
provider loop falls through: an English apology, independent of the
language hint. -/
def chatFallbackText : String :=
  "I" ++ apos ++ "m having trouble connecting to my reasoning engine. Please try again in a moment."

/-- Language directive appended to the system prompt by
`ReasoningEngine.chat`, keyed by the language hint (dict `.get` with
default empty string). -/
def langInstruction (languageHint : String) : String :=
  if languageHint = "es" then
    " Respond in Mexican Spanish (español de México). Use natural CDMX dialect, not formal Castilian."
  else if languageHint = "hi" then
    " Respond in Hindi (हिंदी). Use Devanagari script naturally."
  else if languageHint = "en" then
    " Respond in English."
  else ""

/-- Python `str.strip()` on the default whitespace set: drop whitespace
from both ends. -/
def pyStrip (s : String) : String :=
  ⟨(((s.data.dropWhile Char.isWhitespace).reverse.dropWhile Char.isWhitespace).reverse)⟩

/-- Provider configuration record `LLMConfig` of `reasoning_engine.py`
(the float `temperature` field carries no control flow and is left out;
`provider` is the enum value string). -/
structure LLMConfig where
  provider : String
  model : String
  apiKey : String
  baseUrl : String
  maxTokens : Nat := 512
  enabled : Bool := true
deriving DecidableEq

/-- Result of one `ReasoningEngine.chat` call: the returned text, the
provider recorded in `self._active_provider` (as a 0-based index into the
provider list, `none` when untouched), and the 0-based indices of the
providers actually invoked, in call order. -/
structure ChatOutcome where
  text : String
  activeProvider : Option Nat
  called : List Nat
deriving DecidableEq

/-- Provider loop of `ReasoningEngine.chat`.  The network request of
`_call_provider` is external and enters the model as `call i fullSystem`
(`Except.error` for a raised exception, `Except.ok` for returned text; the
messages, token limit and temperature are forwarded unmodified and are
absorbed into `call`).  A disabled provider is skipped without being
invoked; a raised exception moves to the next provider; returned text is
kept only when non-empty (Python truthiness of `if result:`), in which
case the provider is recorded as active and the loop stops; an empty
result moves on without recording.  When the loop falls through, the
fixed fallback string is returned and the active provider is left as it
was. -/
def chatLoop (call : Nat → String → Except Unit String) (fullSystem : String) :
    List LLMConfig → Nat → Option Nat → ChatOutcome
  | [], _, active => { text := chatFallbackText, activeProvider := active, called := [] }
  | cfg :: rest, i, active =>
      if cfg.enabled = false then chatLoop call fullSystem rest (i + 1) active
      else
        match call i fullSystem with
        | Except.error _ =>
            let r := chatLoop call fullSystem rest (i + 1) active
            { r with called := i :: r.called }
        | Except.ok s =>
            if s = "" then
              let r := chatLoop call fullSystem rest (i + 1) active
              { r with called := i :: r.called }
            else { text := s, activeProvider := some i, called := [i] }

/-- Embedding of `ReasoningEngine.chat`: build the full system prompt by
appending the language directive for the hint and stripping, then run the
provider loop in list order starting from the current active provider
record. -/
def chat (call : Nat → String → Except Unit String) (providers : List LLMConfig)
    (systemPrompt languageHint : String) (active : Option Nat) : ChatOutcome :=
  chatLoop call (pyStrip (systemPrompt ++ langInstruction languageHint)) providers 0 active

/-- Conversation context of a call (`ConversationContext` of
`voice_call.py`), with its field defaults. -/
structure ConversationContext where
  niche : String := ""
  page_type : String := "landing"
  preferences : List String := []
  patterns_discussed : List String := []
  client_notes : List String := []
  messages : List ChatMsg := []
  detected_language : String := "en"
deriving DecidableEq

/-- Python `sep.join(parts)`. -/
def strJoin (sep : String) : List String → String
  | [] => ""
  | [p] => p
  | p :: q :: rest => p ++ sep ++ strJoin sep (q :: rest)

/-- Python slice `s[:n]` on a string. -/
def strTake (n : Nat) (s : String) : String :=
  ⟨s.data.take n⟩

/-- Python slice `l[-n:]` on a list: the last `n` elements. -/
def lastN (n : Nat) (l : List ChatMsg) : List ChatMsg :=
  l.drop (l.length - n)

/-- Parts list assembled by `ConversationContext.to_brief`: the non-empty
field summaries followed by the last six messages (content truncated to
200 characters). -/
def briefParts (ctx : ConversationContext) : List String :=
  ((if ctx.niche ≠ "" then ["Niche: " ++ ctx.niche] else []) ++
    (if ctx.page_type ≠ "" then ["Page type: " ++ ctx.page_type] else []) ++
    (if ctx.preferences ≠ [] then ["Preferences: " ++ strJoin ", " ctx.preferences] else []) ++
    (if ctx.patterns_discussed ≠ [] then ["Patterns: " ++ strJoin ", " ctx.patterns_discussed] else []) ++
    (if ctx.client_notes ≠ [] then ["Notes: " ++ strJoin "; " ctx.client_notes] else [])) ++
  (if lastN 6 ctx.messages ≠ [] then
    "Recent conversation:" ::
      (lastN 6 ctx.messages).map (fun m => "  " ++ m.role ++ ": " ++ strTake 200 m.content)
  else [])

/-- Embedding of `ConversationContext.to_brief`: join the parts with
newlines. -/
def to_brief (ctx : ConversationContext) : String :=
  strJoin "\n" (briefParts ctx)

/-- Python truthiness test `not brief.strip()` of `on_hangup`: true
exactly when the brief consists solely of whitespace. -/
def briefIsBlank (brief : String) : Bool :=
  brief.data.all Char.isWhitespace

/-- Python substring test `pat in s` on character sequences. -/
def containsSub (pat : List Char) : List Char → Bool
  | [] => pat.isEmpty
  | c :: rest => pat.isPrefixOf (c :: rest) || containsSub pat rest

/-- Python `str.lower()` restricted to ASCII case mapping
(`Char.toLower`); every keyword the extractor compares against is already
lower case. -/
def pyLower (s : String) : List Char :=
  s.data.map Char.toLower

/-- Keyword table `niche_keywords` of `_extract_context`, in source
(insertion) order. -/
def niche_keywords : List (String × List String) :=
  [("saas", ["saas", "software", "app", "platform", "tool", "dashboard"]),
   ("ecommerce", ["shop", "store", "ecommerce", "e-commerce", "products", "sell", "tienda"]),
   ("portfolio", ["portfolio", "personal", "freelance", "my work", "portafolio"]),
   ("agency", ["agency", "studio", "firm", "company", "agencia"]),
   ("restaurant", ["restaurant", "food", "menu", "cafe", "bar", "restaurante"]),
   ("fashion", ["fashion", "clothing", "brand", "apparel", "moda", "ropa"]),
   ("tech", ["tech", "startup", "ai", "machine learning", "tecnología"]),
   ("medical", ["medical", "health", "clinic", "doctor", "salud", "médico"]),
   ("legal", ["law", "legal", "attorney", "lawyer", "abogado"]),
   ("real_estate", ["real estate", "property", "properties", "inmobiliaria", "bienes raíces"]),
   ("education", ["school", "university", "education", "course", "escuela", "educación"]),
   ("fitness", ["gym", "fitness", "workout", "training", "gimnasio"])]

/-- Keyword table `page_keywords` of `_extract_context`, in source
(insertion) order. -/
def page_keywords : List (String × List String) :=
  [("landing", ["landing", "home", "main page", "front page", "página principal"]),
   ("product", ["product", "feature", "pricing", "producto"]),
   ("about", ["about", "team", "who we are", "nosotros"]),
   ("blog", ["blog", "content", "articles", "artículos"]),
   ("contact", ["contact", "get in touch", "contacto"]),
   ("ecommerce", ["shop page", "catalog", "catálogo"])]

/-- Keyword table `pattern_keywords` of `_extract_context`, in source
(insertion) order. -/
def pattern_keywords : List (String × String) :=
  [("animations", "scroll-pin-section"),
   ("video hero", "video-hero-transition"),
   ("parallax", "parallax-depth-layers"),
   ("bento", "bento-tilt-grid"),
   ("clip path", "clip-path-hero-reveal"),
   ("3d", "parallax-depth-layers"),
   ("cursor", "cursor-follower"),
   ("magnetic", "magnetic-buttons"),
   ("scramble", "text-scramble-reveal")]

/-- First table key whose keyword list has a member occurring in the
lowered text; the Python loop breaks at the first hit and leaves the
field alone when nothing matches. -/
def firstKeywordMatch (textLower : List Char) :
    List (String × List String) → Option String
  | [] => none
  | (key, kws) :: rest =>
      if kws.any (fun kw => containsSub kw.data textLower) then some key
      else firstKeywordMatch textLower rest

/-- One pass of the design-pattern loop of `_extract_context`: append the
pattern when its keyword occurs in the lowered text and the pattern is
not yet recorded. -/
def patternStep (textLower : List Char) (c : ConversationContext)
    (kp : String × String) : ConversationContext :=
  if containsSub kp.1.data textLower ∧ kp.2 ∉ c.patterns_discussed then
    { c with patterns_discussed := c.patterns_discussed ++ [kp.2] }
  else c

/-- Embedding of `VoiceCallManager._extract_context`: update the niche and
page type to the first matching table key (keeping the old value when no
keyword matches), append every newly mentioned design pattern, and note
the text (truncated to 200 characters) when it is longer than 20
characters. -/
def extract_context (text : String) (ctx : ConversationContext) :
    ConversationContext :=
  let textLower := pyLower text
  let ctx :=
    match firstKeywordMatch textLower niche_keywords with
    | some n => { ctx with niche := n }
    | none => ctx
  let ctx :=
    match firstKeywordMatch textLower page_keywords with
    | some p => { ctx with page_type := p }
    | none => ctx
  let ctx := pattern_keywords.foldl (patternStep textLower) ctx
  if 20 < text.data.length then
    { ctx with client_notes := ctx.client_notes ++ [strTake 200 text] }
  else ctx

/-- Context mutations performed by the owning `VoiceCallManager` over a
call: message appends (`on_connect` and `_process_utterance`), the
detected-language switch, and `_extract_context` (the other extraction
helpers write only to the external memory store). -/
inductive ContextMutation where
  | appendMessage (m : ChatMsg)
  | setLanguage (lang : String)
  | extract (text : String)

/-- Apply one context mutation. -/
def applyMutation (ctx : ConversationContext) : ContextMutation → ConversationContext
  | ContextMutation.appendMessage m => { ctx with messages := ctx.messages ++ [m] }
  | ContextMutation.setLanguage l => { ctx with detected_language := l }
  | ContextMutation.extract t => extract_context t ctx

/-- Context evolved from a freshly constructed `ConversationContext()` by
a sequence of mutations. -/
def evolveContext (muts : List ContextMutation) : ConversationContext :=
  muts.foldl applyMutation {}

/-- Per-call state of `VoiceCallManager` that the audio path touches: the
playback flag `_is_playing`, the `AudioBuffer`, the conversation context
and the chat history. -/
structure VoiceSession where
  isPlaying : Bool
  audioBuffer : AudioBufferState
  context : ConversationContext
  chatHistory : List ChatMsg
deriving DecidableEq

/-- Embedding of `VoiceCallManager.on_mulaw_chunk`.  The downstream
utterance pipeline `_process_utterance` (STT, reasoning, TTS — all
external calls) enters the model as the parameter `process`.  While
`_is_playing` is set the chunk is discarded before the audio buffer is
even touched and the call answers `none`; otherwise the chunk goes into
the buffer and a completed utterance, if any, is processed. -/
def on_mulaw_chunk
    (process : VoiceSession → List Byte → VoiceSession × List (List Byte))
    (s : VoiceSession) (mulawChunk : List Byte) :
    VoiceSession × Option (List (List Byte)) :=
  if s.isPlaying then (s, none)
  else
    let step := add_chunk s.audioBuffer mulawChunk
    let s1 := { s with audioBuffer := step.2 }
    match step.1 with
    | none => (s1, none)
    | some utterance =>
        let done := process s1 utterance
        (done.1, some done.2)

/-- C1: for every companded byte, the entry of the precomputed
`_MULAW_DECODE_TABLE` that the pure-Python path of `mulaw_decode` indexes
is exactly the canonical G.711 μ-law reference decode of that byte, and
it is a 16-bit signed sample. -/
theorem mulaw_decode_matches_reference_table :
    ∀ b : Byte,
      mulawDecodeTable.getD b.val 0 = mulawReferenceDecode b ∧
      mulaw_decode [b] = [mulawReferenceDecode b] ∧
      -32768 ≤ mulawReferenceDecode b ∧ mulawReferenceDecode b ≤ 32767 := by
  decide

/-- C5 counterexample: at the companded byte `0x7F = 127` (positive zero)
the round trip gives `0xFF = 255` (negative zero), a code 128 apart from
the input, refuting the claim that the re-encoded code is always within
one code of the original. -/
theorem mulaw_roundtrip_fails_at_0x7F :
    mulawEncodeSample (mulawDecodeSample (127 : Fin 256)) = 255 ∧
    ¬(((mulawEncodeSample (mulawDecodeSample (127 : Fin 256)) : Int) - 127).natAbs ≤ 1) := by
  decide

/-- C5 amended: for every companded byte except `0x7F` the encode of its
decode reproduces the byte exactly; for `0x7F` it yields `0xFF`, the
other zero code, which decodes to the same sample. -/
theorem mulaw_roundtrip_amended :
    ∀ b : Byte,
      mulawEncodeSample (mulawDecodeSample b) = b.val ∨
      (b.val = 127 ∧ mulawEncodeSample (mulawDecodeSample b) = 255 ∧
        mulawDecodeSample (255 : Fin 256) = mulawDecodeSample b) := by
  decide

/-- C6: `mulaw_encode` on an odd-length PCM byte buffer propagates the
unpack failure instead of returning anything; in particular it never
returns an encoding of a truncated prefix of the buffer. -/
theorem mulaw_encode_odd_length_rejects (pcmBytes : List Byte)
    (hodd : pcmBytes.length % 2 = 1) :
    mulaw_encode pcmBytes = Except.error () ∧
    ∀ r, mulaw_encode pcmBytes ≠ Except.ok r := by
  have hne : ¬(pcmBytes.length = 2 * (pcmBytes.length / 2)) := by omega
  refine ⟨?_, ?_⟩
  · simp [mulaw_encode, structUnpack16LE, hne]
  · intro r
    simp [mulaw_encode, structUnpack16LE, hne]

/-- Witness for C6 at the one-byte buffer `[0]`. -/
theorem mulaw_encode_odd_length_rejects_witness :
    mulaw_encode [(0 : Fin 256)] = Except.error () :=
  (mulaw_encode_odd_length_rejects [(0 : Fin 256)] (by decide)).1

/-- C7 counterexample: at source rate 22050 — which is neither 8000 nor
16000 — `resample_to_8k` returns audio instead of failing, both when the
external resampler raises (the input comes back unchanged) and when it
succeeds, and `pcm_to_mulaw_8k` then encodes the result; no
unsupported-rate failure exists on any path. -/
theorem resample_to_8k_no_unsupported_rate_failure :
    resample_to_8k (fun _ _ => none) [(0 : Fin 256), 0] 22050 = [0, 0] ∧
    resample_to_8k (fun pcm _ => some pcm) [(0 : Fin 256), 0] 22050 = [0, 0] ∧
    pcm_to_mulaw_8k (fun _ _ => none) [(0 : Fin 256), 0] 22050 = Except.ok [255] :=
  ⟨rfl, rfl, rfl⟩

/-- C7 amended: `resample_to_8k` supports any source rate and never
fails: rate 8000 returns the input unchanged, a raising resampler call is
caught and the input is returned unchanged, and a successful resampler
call returns the converted audio. -/
theorem resample_to_8k_amended (ratecv : List Byte → Nat → Option (List Byte))
    (pcmData : List Byte) (sourceRate : Nat) :
    (sourceRate = 8000 → resample_to_8k ratecv pcmData sourceRate = pcmData) ∧
    (ratecv pcmData sourceRate = none →
      resample_to_8k ratecv pcmData sourceRate = pcmData) ∧
    (∀ out, ratecv pcmData sourceRate = some out → sourceRate ≠ 8000 →
      resample_to_8k ratecv pcmData sourceRate = out) := by
  refine ⟨fun h => by simp [resample_to_8k, h], fun h => ?_, fun out h hne => ?_⟩
  · by_cases h8 : sourceRate = 8000 <;> simp [resample_to_8k, h8, h]
  · simp [resample_to_8k, h, hne]

/-- Witness for C7 amended: a raising resampler at rate 22050 hands the
input back. -/
theorem resample_to_8k_amended_witness :
    resample_to_8k (fun _ _ => none) [(1 : Fin 256)] 22050 = [(1 : Fin 256)] :=
  (resample_to_8k_amended (fun _ _ => none) [(1 : Fin 256)] 22050).2.1 rfl

/-- Characterization of `add_chunk` as a single conditional: this is the
flush condition of the segmenter, written out once and shared by the
scenario lemmas below. -/
theorem add_chunk_eq (st : AudioBufferState) (chunk : List Byte) :
    add_chunk st chunk =
      if st.maxBytes ≤ (st.buffer ++ chunk).length ∨
         (st.minBytes ≤ (st.buffer ++ chunk).length ∧
           (if audioRms (mulaw_decode chunk) < silenceThreshold then
              st.speechDetected else true) = true ∧
           15 ≤ (if audioRms (mulaw_decode chunk) < silenceThreshold then
              st.silenceChunks + 1 else 0))
      then (some (st.buffer ++ chunk),
            { st with buffer := [], silenceChunks := 0, speechDetected := false })
      else (none,
            { st with
                buffer := st.buffer ++ chunk,
                silenceChunks :=
                  if audioRms (mulaw_decode chunk) < silenceThreshold then
                    st.silenceChunks + 1 else 0,
                speechDetected :=
                  if audioRms (mulaw_decode chunk) < silenceThreshold then
                    st.speechDetected else true }) := by
  simp only [add_chunk]
  split_ifs <;> first | rfl | tauto

/-- RMS of the all-`0xFF` silent frame is 0. -/
theorem rms_silentFrame : audioRms (mulaw_decode silentFrame) = 0 := by
  decide

/-- RMS of the all-`0x80` loud frame is 32124. -/
theorem rms_loudFrame : audioRms (mulaw_decode loudFrame) = 32124 := by
  decide

/-- Unfolding of one `runFrames` step when the chunk flushes. -/
theorem runFrames_cons_flush (st : AudioBufferState) (idx : Nat) (f : List Byte)
    (fs : List (List Byte)) (buf : List Byte) (st1 : AudioBufferState)
    (h : add_chunk st f = (some buf, st1)) :
    runFrames st idx (f :: fs) =
      (idx, buf.length) :: runFrames st1 (idx + 1) fs := by
  simp only [runFrames, h]

/-- Unfolding of one `runFrames` step when the chunk buffers. -/
theorem runFrames_cons_none (st : AudioBufferState) (idx : Nat) (f : List Byte)
    (fs : List (List Byte)) (st1 : AudioBufferState)
    (h : add_chunk st f = (none, st1)) :
    runFrames st idx (f :: fs) = runFrames st1 (idx + 1) fs := by
  simp only [runFrames, h]

/-- One silent frame buffers without flushing as long as the cap is not
hit and either no speech was detected yet or the silence run stays below
15. -/
theorem add_chunk_silent_noflush (buf : List Byte) (j : Nat) (sp : Bool)
    (hmax : buf.length + 160 < 64000) (hcond : sp = false ∨ j + 1 < 15) :
    add_chunk ⟨buf, 8000, 64000, j, sp⟩ silentFrame =
      (none, ⟨buf ++ silentFrame, 8000, 64000, j + 1, sp⟩) := by
  rw [add_chunk_eq]
  have hlen : (buf ++ silentFrame).length = buf.length + 160 := by
    simp [silentFrame]
  rw [if_neg]
  · simp [rms_silentFrame, silenceThreshold]
  · simp only [hlen, rms_silentFrame, silenceThreshold]
    rintro (h | ⟨h1, h2, h3⟩)
    · omega
    · simp at h2 h3
      rcases hcond with hc | hc
      · simp [hc] at h2
      · omega

/-- One loud frame buffers without flushing (it resets the silence run),
as long as the cap is not hit. -/
theorem add_chunk_loud_noflush (buf : List Byte) (j : Nat) (sp : Bool)
    (hmax : buf.length + 160 < 64000) :
    add_chunk ⟨buf, 8000, 64000, j, sp⟩ loudFrame =
      (none, ⟨buf ++ loudFrame, 8000, 64000, 0, true⟩) := by
  rw [add_chunk_eq]
  have hlen : (buf ++ loudFrame).length = buf.length + 160 := by
    simp [loudFrame]
  rw [if_neg]
  · simp [rms_loudFrame, silenceThreshold]
  · simp only [hlen, rms_loudFrame, silenceThreshold]
    rintro (h | ⟨h1, h2, h3⟩)
    · omega
    · norm_num at h3

/-- The 15th consecutive silent frame after detected speech flushes once
the accumulator holds at least `min_bytes` (and less than the cap). -/
theorem add_chunk_silent_flush (buf : List Byte) (j : Nat)
    (hmin : 8000 ≤ buf.length + 160) (hmax : buf.length + 160 < 64000)
    (hj : 14 ≤ j) :
    add_chunk ⟨buf, 8000, 64000, j, true⟩ silentFrame =
      (some (buf ++ silentFrame), ⟨[], 8000, 64000, 0, false⟩) := by
  rw [add_chunk_eq]
  have hlen : (buf ++ silentFrame).length = buf.length + 160 := by
    simp [silentFrame]
  rw [if_pos]
  simp only [hlen, rms_silentFrame, silenceThreshold]
  right
  norm_num
  omega

/-- Feeding `n` silent frames before any speech only grows the buffer and
the silence run (no flush), as long as the cap is never reached. -/
theorem runFrames_silent_phase (n : Nat) :
    ∀ (buf : List Byte) (j idx : Nat) (rest : List (List Byte)),
      buf.length + 160 * n < 64000 →
      runFrames ⟨buf, 8000, 64000, j, false⟩ idx
          (List.replicate n silentFrame ++ rest) =
        runFrames ⟨buf ++ List.replicate (160 * n) (255 : Fin 256), 8000, 64000,
            j + n, false⟩ (idx + n) rest := by
  induction n with
  | zero => intro buf j idx rest _; simp
  | succ n ih =>
      intro buf j idx rest hlt
      have hstep : add_chunk ⟨buf, 8000, 64000, j, false⟩ silentFrame =
          (none, ⟨buf ++ silentFrame, 8000, 64000, j + 1, false⟩) :=
        add_chunk_silent_noflush buf j false (by omega) (Or.inl rfl)
      rw [List.replicate_succ, List.cons_append,
        runFrames_cons_none _ _ _ _ _ hstep]
      have hlen : (buf ++ silentFrame).length = buf.length + 160 := by
        simp [silentFrame]
      rw [ih (buf ++ silentFrame) (j + 1) (idx + 1) rest (by omega)]
      have hb : (buf ++ silentFrame) ++ List.replicate (160 * n) (255 : Fin 256) =
          buf ++ List.replicate (160 * (n + 1)) (255 : Fin 256) := by
        rw [List.append_assoc, silentFrame, ← List.replicate_add]
        congr 2
        ring_nf
      have hsil : j + 1 + n = j + (n + 1) := by omega
      have hidx : idx + 1 + n = idx + (n + 1) := by omega
      rw [hb, hsil, hidx]

/-- Feeding `n + 1` loud frames only grows the buffer, resets the silence
run and raises the speech flag (no flush), as long as the cap is never
reached. -/
theorem runFrames_loud_phase (n : Nat) :
    ∀ (buf : List Byte) (j idx : Nat) (sp : Bool) (rest : List (List Byte)),
      buf.length + 160 * (n + 1) < 64000 →
      runFrames ⟨buf, 8000, 64000, j, sp⟩ idx
          (List.replicate (n + 1) loudFrame ++ rest) =
        runFrames ⟨buf ++ List.replicate (160 * (n + 1)) (128 : Fin 256), 8000,
            64000, 0, true⟩ (idx + (n + 1)) rest := by
  induction n with
  | zero =>
      intro buf j idx sp rest hlt
      have hstep := add_chunk_loud_noflush buf j sp (by omega)
      rw [List.replicate_succ, List.replicate_zero, List.cons_append,
        List.nil_append, runFrames_cons_none _ _ _ _ _ hstep]
      simp [loudFrame]
  | succ n ih =>
      intro buf j idx sp rest hlt
      have hstep := add_chunk_loud_noflush buf j sp (by omega)
      rw [List.replicate_succ, List.cons_append,
        runFrames_cons_none _ _ _ _ _ hstep]
      have hlen : (buf ++ loudFrame).length = buf.length + 160 := by
        simp [loudFrame]
      rw [ih (buf ++ loudFrame) 0 (idx + 1) true rest (by omega)]
      have hb : (buf ++ loudFrame) ++ List.replicate (160 * (n + 1)) (128 : Fin 256) =
          buf ++ List.replicate (160 * (n + 1 + 1)) (128 : Fin 256) := by
        rw [List.append_assoc, loudFrame, ← List.replicate_add]
        congr 2
        ring_nf
      have hidx : idx + 1 + (n + 1) = idx + (n + 1 + 1) := by omega
      rw [hb, hidx]

/-- Silent frames after detected speech keep buffering while the silence
run stays at most 14 (no flush), as long as the cap is never reached. -/
theorem runFrames_trailing_phase (n : Nat) :
    ∀ (buf : List Byte) (j idx : Nat) (rest : List (List Byte)),
      buf.length + 160 * n < 64000 → j + n ≤ 14 →
      runFrames ⟨buf, 8000, 64000, j, true⟩ idx
          (List.replicate n silentFrame ++ rest) =
        runFrames ⟨buf ++ List.replicate (160 * n) (255 : Fin 256), 8000, 64000,
            j + n, true⟩ (idx + n) rest := by
  induction n with
  | zero => intro buf j idx rest _ _; simp
  | succ n ih =>
      intro buf j idx rest hlt hj
      have hstep : add_chunk ⟨buf, 8000, 64000, j, true⟩ silentFrame =
          (none, ⟨buf ++ silentFrame, 8000, 64000, j + 1, true⟩) :=
        add_chunk_silent_noflush buf j true (by omega) (Or.inr (by omega))
      rw [List.replicate_succ, List.cons_append,
        runFrames_cons_none _ _ _ _ _ hstep]
      have hlen : (buf ++ silentFrame).length = buf.length + 160 := by
        simp [silentFrame]
      rw [ih (buf ++ silentFrame) (j + 1) (idx + 1) rest (by omega) (by omega)]
      have hb : (buf ++ silentFrame) ++ List.replicate (160 * n) (255 : Fin 256) =
          buf ++ List.replicate (160 * (n + 1)) (255 : Fin 256) := by
        rw [List.append_assoc, silentFrame, ← List.replicate_add]
        congr 2
        ring_nf
      have hsil : j + 1 + n = j + (n + 1) := by omega
      have hidx : idx + 1 + n = idx + (n + 1) := by omega
      rw [hb, hsil, hidx]

/-- C4: `add_chunk` flushes (returning the accumulated buffer including
the new chunk and resetting accumulator, silence counter and speech
flag) exactly when the accumulator has reached `max_bytes`, or has
reached `min_bytes` with speech detected and a silence run of at least 15
consecutive silent chunks, and otherwise buffers and returns nothing;
and under the 8000/64000 construction, feeding 80 silent frames, 40
frames above the threshold and 16 silent frames flushes exactly once, on
frame 135 — the 15th trailing-silence frame — with 21600 ≥ 8000 bytes. -/
theorem add_chunk_flush_condition :
    (∀ (st : AudioBufferState) (chunk : List Byte),
      add_chunk st chunk =
        if st.maxBytes ≤ (st.buffer ++ chunk).length ∨
           (st.minBytes ≤ (st.buffer ++ chunk).length ∧
             (if audioRms (mulaw_decode chunk) < silenceThreshold then
                st.speechDetected else true) = true ∧
             15 ≤ (if audioRms (mulaw_decode chunk) < silenceThreshold then
                st.silenceChunks + 1 else 0))
        then (some (st.buffer ++ chunk),
              { st with buffer := [], silenceChunks := 0, speechDetected := false })
        else (none,
              { st with
                  buffer := st.buffer ++ chunk,
                  silenceChunks :=
                    if audioRms (mulaw_decode chunk) < silenceThreshold then
                      st.silenceChunks + 1 else 0,
                  speechDetected :=
                    if audioRms (mulaw_decode chunk) < silenceThreshold then
                      st.speechDetected else true })) ∧
    runFrames (AudioBufferState.init 8000 64000) 1 flushScenario = [(135, 21600)] := by
  refine ⟨add_chunk_eq, ?_⟩
  have hsc : flushScenario =
      List.replicate 80 silentFrame ++
        (List.replicate 40 loudFrame ++ List.replicate 16 silentFrame) := by
    rw [flushScenario, List.append_assoc]
  have h0 : AudioBufferState.init 8000 64000 =
      (⟨[], 8000, 64000, 0, false⟩ : AudioBufferState) := rfl
  rw [h0, hsc, runFrames_silent_phase 80 [] 0 1 _ (by simp)]
  simp only [List.nil_append]
  norm_num
  rw [show (40 : Nat) = 39 + 1 by norm_num]
  have hloud := runFrames_loud_phase 39 (List.replicate 12800 (255 : Fin 256)) 80 81 false
      (List.replicate 16 silentFrame) (by norm_num)
  rw [hloud]
  norm_num
  rw [show (16 : Nat) = 14 + 2 by norm_num, List.replicate_add]
  have htrail := runFrames_trailing_phase 14
      (List.replicate 12800 (255 : Fin 256) ++ List.replicate 6400 (128 : Fin 256))
      0 121 (List.replicate 2 silentFrame) (by norm_num [List.length_append]) (by omega)
  rw [htrail]
  norm_num
  have hflush := add_chunk_silent_flush
    (List.replicate 12800 (255 : Fin 256) ++ (List.replicate 6400 (128 : Fin 256) ++
      List.replicate 2240 (255 : Fin 256))) 14
    (by norm_num [List.length_append]) (by norm_num [List.length_append]) (by omega)
  rw [show List.replicate 2 silentFrame = silentFrame :: silentFrame :: [] from rfl]
  rw [runFrames_cons_flush _ _ _ _ _ _ hflush]
  have hlast : add_chunk ⟨[], 8000, 64000, 0, false⟩ silentFrame =
      (none, ⟨[] ++ silentFrame, 8000, 64000, 0 + 1, false⟩) :=
    add_chunk_silent_noflush [] 0 false (by norm_num [silentFrame]) (Or.inl rfl)
  rw [runFrames_cons_none _ _ _ _ _ hlast]
  have hlen : ((List.replicate 12800 (255 : Fin 256) ++ (List.replicate 6400 (128 : Fin 256) ++
      List.replicate 2240 (255 : Fin 256))) ++ silentFrame).length = 21600 := by
    norm_num [List.length_append, silentFrame]
  rw [hlen]
  rfl

/-- Fallback behaviour of the provider loop: when every call raises or
returns empty text, the loop falls through to the fixed apology string
and leaves the active-provider record untouched. -/
theorem chatLoop_all_fail (call : Nat → String → Except Unit String)
    (fullSystem : String)
    (hfail : ∀ i s, call i s = Except.error () ∨ call i s = Except.ok "") :
    ∀ (providers : List LLMConfig) (i : Nat) (active : Option Nat),
      (chatLoop call fullSystem providers i active).text = chatFallbackText ∧
      (chatLoop call fullSystem providers i active).activeProvider = active := by
  intro providers
  induction providers with
  | nil => intro i active; exact ⟨rfl, rfl⟩
  | cons cfg rest ih =>
      intro i active
      by_cases he : cfg.enabled = false
      · simpa only [chatLoop, he, if_pos] using ih (i + 1) active
      · rcases hfail i fullSystem with h | h
        · simpa only [chatLoop, he, if_neg, h] using ih (i + 1) active
        · simpa only [chatLoop, he, if_neg, h, if_pos] using ih (i + 1) active

/-- C2 counterexample: with all providers raising, `chat` called with the
Spanish hint and with the Hindi hint returns the very same string as with
the English hint — the fixed English apology — so the fallback is not in
the requested language. -/
theorem chat_fallback_ignores_language_hint :
    (chat (fun _ _ => Except.error ())
        [{ provider := "ollama", model := "qwen2.5-coder", apiKey := "",
           baseUrl := "http://localhost:11434/api/chat", maxTokens := 1024 }]
        "You are Synthia." "es" none).text = chatFallbackText ∧
    (chat (fun _ _ => Except.error ())
        [{ provider := "ollama", model := "qwen2.5-coder", apiKey := "",
           baseUrl := "http://localhost:11434/api/chat", maxTokens := 1024 }]
        "You are Synthia." "hi" none).text = chatFallbackText ∧
    (chat (fun _ _ => Except.error ())
        [{ provider := "ollama", model := "qwen2.5-coder", apiKey := "",
           baseUrl := "http://localhost:11434/api/chat", maxTokens := 1024 }]
        "You are Synthia." "en" none).text = chatFallbackText := by
  exact ⟨rfl, rfl, rfl⟩

/-- C2 amended: for every provider list, system prompt, language hint and
prior active-provider record, if every provider call raises or returns no
text then `chat` returns the one fixed (English) apology string —
independent of the hint — and leaves the active-provider record
untouched; being a total function, the embedded control flow raises
nothing. -/
theorem chat_all_providers_fail_amended
    (call : Nat → String → Except Unit String) (providers : List LLMConfig)
    (systemPrompt languageHint : String) (active : Option Nat)
    (hfail : ∀ i s, call i s = Except.error () ∨ call i s = Except.ok "") :
    (chat call providers systemPrompt languageHint active).text = chatFallbackText ∧
    (chat call providers systemPrompt languageHint active).activeProvider = active := by
  unfold chat
  exact chatLoop_all_fail call _ hfail providers 0 active

/-- Witness for C2 amended: one always-raising provider under the Hindi
hint yields the fixed apology. -/
theorem chat_all_providers_fail_amended_witness :
    (chat (fun _ _ => Except.error ())
        [{ provider := "ollama", model := "qwen2.5-coder", apiKey := "",
           baseUrl := "http://localhost:11434/api/chat", maxTokens := 1024 }]
        "You are Synthia." "hi" none).text = chatFallbackText :=
  (chat_all_providers_fail_amended (fun _ _ => Except.error ()) _
    "You are Synthia." "hi" none (fun _ _ => Or.inl rfl)).1

/-- C3: with the first two providers raising and the third returning
non-empty text, `chat` returns the third provider text, records the
third provider (index 2) as active, and invokes exactly providers 0, 1
and 2 in that order — nothing after the first success. -/
theorem chat_provider_fallback_order
    (call : Nat → String → Except Unit String)
    (p0 p1 p2 : LLMConfig) (rest : List LLMConfig)
    (systemPrompt languageHint : String) (active : Option Nat) (s : String)
    (h0 : p0.enabled = true) (h1 : p1.enabled = true) (h2 : p2.enabled = true)
    (e0 : call 0 (pyStrip (systemPrompt ++ langInstruction languageHint)) =
      Except.error ())
    (e1 : call 1 (pyStrip (systemPrompt ++ langInstruction languageHint)) =
      Except.error ())
    (ok2 : call 2 (pyStrip (systemPrompt ++ langInstruction languageHint)) =
      Except.ok s)
    (hs : s ≠ "") :
    chat call (p0 :: p1 :: p2 :: rest) systemPrompt languageHint active =
      { text := s, activeProvider := some 2, called := [0, 1, 2] } := by
  unfold chat
  simp only [chatLoop, h0, h1, h2, e0, e1, ok2]
  simp [hs]

/-- Witness for C3: a concrete four-provider list where the first two
raise and the third answers. -/
theorem chat_provider_fallback_order_witness :
    chat (fun i _ => if i = 2 then Except.ok "hola" else Except.error ())
      [{ provider := "glm", model := "glm-4-plus", apiKey := "k",
         baseUrl := "https://open.bigmodel.cn/api/paas/v4/chat/completions",
         maxTokens := 1024 },
       { provider := "anthropic", model := "claude-sonnet-4-20250514", apiKey := "k",
         baseUrl := "https://api.anthropic.com/v1/messages", maxTokens := 1024 },
       { provider := "openai", model := "gpt-4o-mini", apiKey := "k",
         baseUrl := "https://api.openai.com/v1/chat/completions", maxTokens := 1024 },
       { provider := "ollama", model := "qwen2.5-coder", apiKey := "",
         baseUrl := "http://localhost:11434/api/chat", maxTokens := 1024 }]
      "You are Synthia." "en" none =
      { text := "hola", activeProvider := some 2, called := [0, 1, 2] } :=
  chat_provider_fallback_order _ _ _ _ _ _ _ _ _ rfl rfl rfl rfl rfl rfl
    (by decide)

/-- C9: a chunk arriving while `_is_playing` is set is dropped whole: the
call returns no response and the session — audio accumulator, silence
counter, speech flag, conversation context and chat history — is exactly
as before. -/
theorem on_mulaw_chunk_discards_while_playing
    (process : VoiceSession → List Byte → VoiceSession × List (List Byte))
    (s : VoiceSession) (mulawChunk : List Byte) (h : s.isPlaying = true) :
    on_mulaw_chunk process s mulawChunk = (s, none) ∧
    (on_mulaw_chunk process s mulawChunk).1.audioBuffer.buffer =
      s.audioBuffer.buffer ∧
    (on_mulaw_chunk process s mulawChunk).1.audioBuffer.silenceChunks =
      s.audioBuffer.silenceChunks ∧
    (on_mulaw_chunk process s mulawChunk).1.audioBuffer.speechDetected =
      s.audioBuffer.speechDetected ∧
    (on_mulaw_chunk process s mulawChunk).1.context = s.context ∧
    (on_mulaw_chunk process s mulawChunk).1.chatHistory = s.chatHistory ∧
    (on_mulaw_chunk process s mulawChunk).2 = none := by
  have heq : on_mulaw_chunk process s mulawChunk = (s, none) := by
    simp [on_mulaw_chunk, h]
  simp [heq]

/-- Witness for C9 at a concrete playing session. -/
theorem on_mulaw_chunk_discards_while_playing_witness :
    on_mulaw_chunk (fun st _ => (st, []))
        ⟨true, AudioBufferState.init 8000 64000, {}, []⟩ [(0 : Fin 256)] =
      (⟨true, AudioBufferState.init 8000 64000, {}, []⟩, none) :=
  (on_mulaw_chunk_discards_while_playing (fun st _ => (st, []))
    ⟨true, AudioBufferState.init 8000 64000, {}, []⟩ [(0 : Fin 256)] rfl).1

/-- Splitting the empty buffer yields no chunks, whatever the fuel. -/
theorem splitChunksGo_nil (chunkSize fuel : Nat) :
    splitChunksGo chunkSize fuel [] = [] := by
  cases fuel <;> rfl

/-- Structure of the chunk list produced by the splitter: the chunks
concatenate back to the input, every chunk is non-empty and at most
`chunkSize` long, and every chunk but the last is exactly `chunkSize`
long. -/
theorem splitChunksGo_props (chunkSize : Nat) (hcs : 0 < chunkSize) :
    ∀ (fuel : Nat) (bytes : List Byte), bytes.length ≤ fuel →
      (splitChunksGo chunkSize fuel bytes).flatten = bytes ∧
      (∀ c ∈ splitChunksGo chunkSize fuel bytes,
        0 < c.length ∧ c.length ≤ chunkSize) ∧
      (∀ c ∈ (splitChunksGo chunkSize fuel bytes).dropLast,
        c.length = chunkSize) := by
  intro fuel
  induction fuel with
  | zero =>
      intro bytes hlen
      have hb : bytes = [] := List.length_eq_zero.mp (Nat.le_zero.mp hlen)
      subst hb
      refine ⟨rfl, ?_, ?_⟩ <;> intro c hc <;> simp [splitChunksGo] at hc
  | succ fuel ih =>
      intro bytes hlen
      cases bytes with
      | nil =>
          refine ⟨rfl, ?_, ?_⟩ <;> intro c hc <;> simp [splitChunksGo] at hc
      | cons b bs =>
          have hdrop : ((b :: bs).drop chunkSize).length ≤ fuel := by
            rw [List.length_drop]
            simp only [List.length_cons] at hlen ⊢
            omega
          obtain ⟨ihflat, ihbound, ihlast⟩ := ih ((b :: bs).drop chunkSize) hdrop
          have hsplit : splitChunksGo chunkSize (fuel + 1) (b :: bs) =
              ((b :: bs).take chunkSize) ::
                splitChunksGo chunkSize fuel ((b :: bs).drop chunkSize) := rfl
          refine ⟨?_, ?_, ?_⟩
          · rw [hsplit]
            simp only [List.flatten_cons, ihflat, List.take_append_drop]
          · intro c hc
            rw [hsplit] at hc
            rcases List.mem_cons.mp hc with hceq | hcmem
            · subst hceq
              rw [List.length_take]
              constructor
              · simp only [List.length_cons]
                omega
              · exact min_le_left _ _
            · exact ihbound c hcmem
          · intro c hc
            rw [hsplit] at hc
            by_cases hrest : splitChunksGo chunkSize fuel ((b :: bs).drop chunkSize) = []
            · rw [hrest] at hc
              simp at hc
            · rw [List.dropLast_cons_of_ne_nil hrest] at hc
              rcases List.mem_cons.mp hc with hceq | hcmem
              · subst hceq
                have hge : chunkSize ≤ (b :: bs).length := by
                  by_contra hlt
                  have hdnil : (b :: bs).drop chunkSize = [] := by
                    rw [List.drop_eq_nil_iff]
                    omega
                  rw [hdnil, splitChunksGo_nil] at hrest
                  exact hrest rfl
                rw [List.length_take]
                omega
              · exact ihlast c hcmem

/-- C8 counterexample: a 650-byte μ-law buffer splits into a full
640-byte chunk followed by a 10-byte remainder chunk, whose length is not
a multiple of the 640-byte frame size. -/
theorem split_mulaw_chunk_not_frame_multiple :
    (split_mulaw_for_twilio (List.replicate 650 (0 : Fin 256)) 640).map
        List.length = [640, 10] ∧
    ¬(640 ∣ 10) := by
  exact ⟨by decide, by decide⟩

/-- C8 amended: the chunks of `split_mulaw_for_twilio` concatenate back
to the input payload, every chunk is non-empty and at most 640 bytes, and
every chunk except possibly the last is exactly 640 bytes — so an
outbound chunk is a multiple of the 640-byte frame exactly when it is not
a short trailing remainder. -/
theorem split_mulaw_for_twilio_amended (mulawBytes : List Byte) :
    (split_mulaw_for_twilio mulawBytes 640).flatten = mulawBytes ∧
    (∀ c ∈ split_mulaw_for_twilio mulawBytes 640,
      0 < c.length ∧ c.length ≤ 640) ∧
    (∀ c ∈ (split_mulaw_for_twilio mulawBytes 640).dropLast,
      c.length = 640) := by
  have h := splitChunksGo_props 640 (by norm_num) mulawBytes.length mulawBytes
    le_rfl
  simpa [split_mulaw_for_twilio] using h

/-- Witness for C8 amended at the 650-byte buffer: the first chunk is
non-empty, at most 640 bytes, and — not being the last — exactly 640
bytes. -/
theorem split_mulaw_for_twilio_amended_witness :
    (0 < (List.replicate 640 (0 : Fin 256)).length ∧
      (List.replicate 640 (0 : Fin 256)).length ≤ 640) ∧
    (List.replicate 640 (0 : Fin 256)).length = 640 :=
  ⟨(split_mulaw_for_twilio_amended (List.replicate 650 (0 : Fin 256))).2.1
      (List.replicate 640 (0 : Fin 256)) (by decide),
   (split_mulaw_for_twilio_amended (List.replicate 650 (0 : Fin 256))).2.2
      (List.replicate 640 (0 : Fin 256)) (by decide)⟩

/-- Every character of every part occurs in the joined string. -/
theorem mem_strJoin_data (sep : String) :
    ∀ (parts : List String) (p : String), p ∈ parts →
      ∀ c, c ∈ p.data → c ∈ (strJoin sep parts).data := by
  intro parts
  induction parts with
  | nil => intro p hp; cases hp
  | cons q rest ih =>
      intro p hp c hc
      cases rest with
      | nil =>
          have hpq : p = q := by simpa using hp
          subst hpq
          simpa [strJoin] using hc
      | cons r rs =>
          rw [show strJoin sep (q :: r :: rs) =
            q ++ sep ++ strJoin sep (r :: rs) from rfl]
          simp only [String.data_append, List.append_assoc, List.mem_append]
          rcases List.mem_cons.mp hp with hq | hmem
          · subst hq
            exact Or.inl hc
          · exact Or.inr (Or.inr (ih p hmem c hc))

/-- A context with a non-empty page type has a brief that is neither
empty nor all-whitespace: the brief contains the literal letter `P` of
its `Page type:` line. -/
theorem to_brief_page_type_nonblank (ctx : ConversationContext)
    (h : ctx.page_type ≠ "") :
    to_brief ctx ≠ "" ∧ briefIsBlank (to_brief ctx) = false := by
  have hmem : ("Page type: " ++ ctx.page_type) ∈ briefParts ctx := by
    simp [briefParts, h]
  have hP : 'P' ∈ ("Page type: " ++ ctx.page_type).data := by
    rw [String.data_append]
    exact List.mem_append.mpr (Or.inl (by decide))
  have hPP : 'P' ∈ (to_brief ctx).data :=
    mem_strJoin_data "\n" (briefParts ctx) _ hmem 'P' hP
  constructor
  · intro he
    rw [he] at hPP
    simp at hPP
  · rw [Bool.eq_false_iff]
    intro htrue
    have hw := List.all_eq_true.mp htrue 'P' hPP
    exact absurd hw (by decide)

/-- The design-pattern loop never touches the page type. -/
theorem foldl_patternStep_page_type (textLower : List Char) :
    ∀ (l : List (String × String)) (c : ConversationContext),
      (l.foldl (patternStep textLower) c).page_type = c.page_type := by
  intro l
  induction l with
  | nil => intro c; rfl
  | cons kp rest ih =>
      intro c
      rw [List.foldl_cons, ih]
      unfold patternStep
      split_ifs <;> rfl

/-- A key returned by the keyword search is a key of the table. -/
theorem firstKeywordMatch_mem (tl : List Char) :
    ∀ (table : List (String × List String)) (k : String),
      firstKeywordMatch tl table = some k → k ∈ table.map Prod.fst := by
  intro table
  induction table with
  | nil => intro k h; simp [firstKeywordMatch] at h
  | cons e rest ih =>
      intro k h
      rw [firstKeywordMatch] at h
      split_ifs at h with hcond
      · simp only [Option.some.injEq] at h
        subst h
        exact List.mem_cons_self _ _
      · exact List.mem_cons_of_mem _ (ih k h)

/-- Page type after `_extract_context`: the first matching page keyword,
or the previous value when nothing matches. -/
theorem extract_context_page_type (text : String) (ctx : ConversationContext) :
    (extract_context text ctx).page_type =
      match firstKeywordMatch (pyLower text) page_keywords with
      | some p => p
      | none => ctx.page_type := by
  simp only [extract_context]
  cases hn : firstKeywordMatch (pyLower text) niche_keywords <;>
    cases hm : firstKeywordMatch (pyLower text) page_keywords <;>
      split_ifs <;>
        simp [foldl_patternStep_page_type]

/-- Every context mutation preserves a non-empty page type: message
appends and language switches leave it alone, and `_extract_context`
either keeps it or replaces it by a key of `page_keywords`, all of which
are non-empty. -/
theorem applyMutation_page_type_ne (ctx : ConversationContext)
    (m : ContextMutation) (h : ctx.page_type ≠ "") :
    (applyMutation ctx m).page_type ≠ "" := by
  cases m with
  | appendMessage msg => exact h
  | setLanguage lang => exact h
  | extract t =>
      show (extract_context t ctx).page_type ≠ ""
      rw [extract_context_page_type]
      cases hm : firstKeywordMatch (pyLower t) page_keywords with
      | none => exact h
      | some p =>
          have hmem := firstKeywordMatch_mem (pyLower t) page_keywords p hm
          have hkeys : ∀ k ∈ page_keywords.map Prod.fst, k ≠ "" := by decide
          exact hkeys p hmem

/-- Non-empty page type is an invariant of every mutation sequence. -/
theorem foldl_applyMutation_page_type :
    ∀ (muts : List ContextMutation) (ctx : ConversationContext),
      ctx.page_type ≠ "" → (muts.foldl applyMutation ctx).page_type ≠ "" := by
  intro muts
  induction muts with
  | nil => intro ctx h; exact h
  | cons m rest ih =>
      intro ctx h
      exact ih _ (applyMutation_page_type_ne ctx m h)

/-- C10: a context whose page type is non-empty has a brief that is
neither empty nor all-whitespace (so the empty-brief branch of
`on_hangup` cannot be taken), and the non-empty page type is an invariant
established by the default value `landing` and preserved by every context
mutation, hence holds for every context evolved from a fresh one. -/
theorem to_brief_nonempty_invariant :
    (∀ ctx : ConversationContext, ctx.page_type ≠ "" →
      to_brief ctx ≠ "" ∧ briefIsBlank (to_brief ctx) = false) ∧
    (∀ muts : List ContextMutation, (evolveContext muts).page_type ≠ "") := by
  constructor
  · exact to_brief_page_type_nonblank
  · intro muts
    exact foldl_applyMutation_page_type muts {} (by decide)

/-- Witness for C10: the brief of a context evolved by one extraction is
not all-whitespace, so that call would dispatch a job. -/
theorem to_brief_nonempty_invariant_witness :
    briefIsBlank (to_brief (evolveContext
      [ContextMutation.extract
        "I need a shop page with parallax for my online store"])) = false :=
  (to_brief_nonempty_invariant.1 _ (to_brief_nonempty_invariant.2 _)).2

end Synthia
